import Mathlib

/-!
Verification development for the qvain-api backend: a shallow embedding of
the dataset validation, sync, publication and authorization-proxy code,
with theorems checking the claims of the specification against it.

JSON values are modelled as trees; a gjson `Raw` string is modelled as the
subtree (so "byte-for-byte equality" of raws becomes tree equality, which
preserves key order and duplicate keys but abstracts whitespace).
Go `time.Time` values are modelled as `Nat` (0 = the zero time); RFC3339
UTC timestamps "YYYY-MM-DDTHH:MM:SSZ" map to their digit string read as a
decimal number, which is monotone in time.
-/

namespace Qvain

/-- JSON tree. Object member lists keep key order and duplicate keys, as the
raw bytes do; numbers are integers (all numeric values the code inspects are
integral). -/
inductive Json where
  | null : Json
  | bool : Bool → Json
  | num : Int → Json
  | str : String → Json
  | arr : List Json → Json
  | obj : List (String × Json) → Json
deriving Repr

mutual

/-- Boolean equality on JSON trees. -/
def Json.beq : Json → Json → Bool
  | .null, .null => true
  | .bool a, .bool b => a == b
  | .num a, .num b => a == b
  | .str a, .str b => a == b
  | .arr a, .arr b => beqJsonList a b
  | .obj a, .obj b => beqJsonMembers a b
  | _, _ => false

/-- Boolean equality on JSON element lists. -/
def beqJsonList : List Json → List Json → Bool
  | [], [] => true
  | x :: xs, y :: ys => Json.beq x y && beqJsonList xs ys
  | _, _ => false

/-- Boolean equality on JSON member lists. -/
def beqJsonMembers : List (String × Json) → List (String × Json) → Bool
  | [], [] => true
  | (k, v) :: xs, (l, w) :: ys => k == l && Json.beq v w && beqJsonMembers xs ys
  | _, _ => false

end

mutual

theorem Json.beq_iff : ∀ a b : Json, Json.beq a b = true ↔ a = b
  | .null, b => by cases b <;> simp [Json.beq]
  | .bool x, b => by cases b <;> simp [Json.beq]
  | .num x, b => by cases b <;> simp [Json.beq]
  | .str x, b => by cases b <;> simp [Json.beq]
  | .arr xs, b => by
    cases b
    case arr ys => simpa [Json.beq] using beqJsonList_iff xs ys
    all_goals simp [Json.beq]
  | .obj kvs, b => by
    cases b
    case obj ls => simpa [Json.beq] using beqJsonMembers_iff kvs ls
    all_goals simp [Json.beq]

theorem beqJsonList_iff : ∀ a b : List Json, beqJsonList a b = true ↔ a = b
  | [], b => by cases b <;> simp [beqJsonList]
  | x :: xs, b => by
    cases b with
    | nil => simp [beqJsonList]
    | cons y ys =>
      simp only [beqJsonList, Bool.and_eq_true, List.cons.injEq]
      rw [Json.beq_iff, beqJsonList_iff]

theorem beqJsonMembers_iff :
    ∀ a b : List (String × Json), beqJsonMembers a b = true ↔ a = b
  | [], b => by cases b <;> simp [beqJsonMembers]
  | (k, v) :: xs, b => by
    cases b with
    | nil => simp [beqJsonMembers]
    | cons y ys =>
      obtain ⟨l, w⟩ := y
      simp only [beqJsonMembers, Bool.and_eq_true, List.cons.injEq, Prod.mk.injEq,
        beq_iff_eq]
      rw [Json.beq_iff, beqJsonMembers_iff]

end

instance : DecidableEq Json := fun a b =>
  decidable_of_iff (Json.beq a b = true) (Json.beq_iff a b)

mutual

/-- Render a JSON tree back to (canonical, whitespace-free) text; models the
raw bytes of a value. -/
def Json.render : Json → String
  | .null => "null"
  | .bool true => "true"
  | .bool false => "false"
  | .num n => toString n
  | .str s => "\"" ++ s ++ "\""
  | .arr xs => "[" ++ renderElems xs ++ "]"
  | .obj kvs => "\x7b" ++ renderMembers kvs ++ "\x7d"

/-- Render array elements, comma-separated. -/
def renderElems : List Json → String
  | [] => ""
  | [x] => x.render
  | x :: xs => x.render ++ "," ++ renderElems xs

/-- Render object members, comma-separated. -/
def renderMembers : List (String × Json) → String
  | [] => ""
  | [kv] => "\"" ++ kv.1 ++ "\":" ++ kv.2.render
  | kv :: rest => "\"" ++ kv.1 ++ "\":" ++ kv.2.render ++ "," ++ renderMembers rest

end

/-- First-match lookup of a key in an object member list (gjson returns the
first occurrence of a key). -/
def lookupKey : List (String × Json) → String → Option Json
  | [], _ => none
  | kv :: rest, k => if kv.1 = k then some kv.2 else lookupKey rest k

/-- gjson single-key lookup: objects only. -/
def Json.getKey : Json → String → Option Json
  | .obj kvs, k => lookupKey kvs k
  | _, _ => none

/-- gjson dotted-path lookup, the path split at the dots. -/
def Json.getPath : Json → List String → Option Json
  | j, [] => some j
  | j, k :: ks =>
    match j.getKey k with
    | some v => v.getPath ks
    | none => none

/-- The `Raw` string of a gjson result: empty for a missing result, the
bytes of the value otherwise. -/
def rawOf : Option Json → String
  | none => ""
  | some j => j.render

/-- gjson `Result.String()`: strings unquoted, numbers and booleans printed,
null and missing are empty, arrays and objects yield their raw text. -/
def gjsonString : Option Json → String
  | none => ""
  | some .null => ""
  | some (.bool true) => "true"
  | some (.bool false) => "false"
  | some (.num n) => toString n
  | some (.str s) => s
  | some j@(.arr _) => j.render
  | some j@(.obj _) => j.render

/-- gjson `Result.Int()`: numbers give their value, numeric strings parse,
true is 1, everything else 0. -/
def gjsonInt : Option Json → Int
  | some (.num n) => n
  | some (.str s) => (s.toInt?).getD 0
  | some (.bool true) => 1
  | _ => 0

/-- Upsert into an association list: replace the first binding of the key in
place, else append (Go map assignment after order is already collapsed). -/
def upsertAssoc : List (String × Json) → String → Json → List (String × Json)
  | [], k, v => [(k, v)]
  | kv :: rest, k, v =>
    if kv.1 = k then (k, v) :: rest else kv :: upsertAssoc rest k v

/-- Keep only the last binding of each key, in first-appearance order
(Go `map[string]interface{}` after `json.Unmarshal`: duplicate keys collapse
to the last value). -/
def dedupLastWins : List (String × Json) → List (String × Json)
  | [] => []
  | (k, v) :: rest =>
    match lookupKey rest k with
    | some _ => dedupLastWins rest
    | none => (k, v) :: dedupLastWins rest

/-- Insert a member into a list sorted by key (string order), for modelling
the sorted map output of `json.Marshal`. -/
def insertByKey (kv : String × Json) : List (String × Json) → List (String × Json)
  | [] => [kv]
  | x :: xs => if kv.1 ≤ x.1 then kv :: x :: xs else x :: insertByKey kv xs

/-- Sort an object member list by key. -/
def sortByKey (l : List (String × Json)) : List (String × Json) :=
  l.foldr insertByKey []

mutual

/-- JSON normalization used by `checkEqual` in the code: `json.Unmarshal`
into `interface{}` followed by `json.Marshal` — duplicate object keys
collapse to the last value and keys are sorted, recursively. -/
def Json.normalize : Json → Json
  | .null => .null
  | .bool b => .bool b
  | .num n => .num n
  | .str s => .str s
  | .arr xs => .arr (normalizeElems xs)
  | .obj kvs => .obj (sortByKey (dedupLastWins (normalizeMembers kvs)))

/-- Normalize array elements. -/
def normalizeElems : List Json → List Json
  | [] => []
  | x :: xs => x.normalize :: normalizeElems xs

/-- Normalize the values of object members. -/
def normalizeMembers : List (String × Json) → List (String × Json)
  | [] => []
  | kv :: rest => (kv.1, kv.2.normalize) :: normalizeMembers rest

end

/-! ## Go time values

`time.Time` is modelled as `Nat`: 0 is the zero time, and a canonical
RFC3339 UTC timestamp "YYYY-MM-DDTHH:MM:SSZ" maps to its 14 digits read as
one decimal number, which is monotone in time. gjson `Result.Time()`
silently yields the zero time when the string does not parse. -/

/-- Shape check for a canonical RFC3339 UTC timestamp (the form the upstream
emits); other layouts are treated as unparsable. -/
def rfc3339Shape (s : String) : Bool :=
  match s.toList with
  | [y1, y2, y3, y4, h1, mo1, mo2, h2, d1, d2, t, hh1, hh2, c1, mi1, mi2, c2, s1, s2, z] =>
    y1.isDigit && y2.isDigit && y3.isDigit && y4.isDigit && h1 = '-' &&
    mo1.isDigit && mo2.isDigit && h2 = '-' && d1.isDigit && d2.isDigit &&
    t = 'T' && hh1.isDigit && hh2.isDigit && c1 = ':' && mi1.isDigit &&
    mi2.isDigit && c2 = ':' && s1.isDigit && s2.isDigit && z = 'Z'
  | _ => false

/-- The digits of a string read as one decimal number. -/
def digitsValue (s : String) : Nat :=
  (s.toList.filter Char.isDigit).foldl (fun acc c => acc * 10 + (c.toNat - '0'.toNat)) 0

/-- Models `time.Parse(time.RFC3339, s)` as used through gjson `Result.Time()`:
the numeric value of the timestamp, or 0 (the zero time) when unparsable. -/
def parseRFC3339 (s : String) : Nat :=
  if rfc3339Shape s then digitsValue s else 0

/-- gjson `Result.Time()` of a lookup result. -/
def jsonTime (o : Option Json) : Nat :=
  parseRFC3339 (gjsonString o)

/-! ## Record ids (wvh/uuid) -/

/-- A record id, canonically 32 lowercase hex characters. -/
abbrev Uuid := String

/-- The zero id. -/
def zeroUuid : Uuid := "00000000000000000000000000000000"

/-- Transcribes `uuid.FromString`: dashes are tolerated, the remaining characters must
be 32 hex digits; decoding and re-encoding canonicalises to lowercase. -/
def uuidFromString (s : String) : Option Uuid :=
  let t := s.toList.filter (fun c => c ≠ '-')
  if t.length = 32 && t.all (fun c => c.isDigit || ('a' ≤ c && c ≤ 'f') || ('A' ≤ c && c ≤ 'F')) then
    some (String.mk (t.map Char.toLower))
  else
    none

/-! ## pkg/metax/versioning.go -/

/-- Transcribes `GetIdentifier`: the string at key `identifier`. -/
def GetIdentifier (blob : Json) : String :=
  gjsonString (blob.getKey "identifier")

/-- Transcribes `GetModificationDate`: fold over the four upstream date keys, keeping
the latest set one (transcribed from versioning.go). -/
def GetModificationDate (blob : Json) : Nat :=
  let createdDate := jsonTime (blob.getKey "date_created")
  let date := createdDate
  let modifiedDate := jsonTime (blob.getKey "date_modified")
  let date := if modifiedDate ≠ 0 ∧ modifiedDate > date then modifiedDate else date
  let deprecatedDate := jsonTime (blob.getKey "date_deprecated")
  let date := if deprecatedDate ≠ 0 ∧ deprecatedDate > date then deprecatedDate else date
  let removedDate := jsonTime (blob.getKey "date_removed")
  let date := if removedDate ≠ 0 ∧ removedDate > date then removedDate else date
  date

/-- Transcribes `MaybeNewVersionId`: the string at path `new_version_created.identifier`,
empty when a publish produced no derived version. -/
def MaybeNewVersionId (blob : Json) : String :=
  gjsonString (blob.getPath ["new_version_created", "identifier"])

/-! ## Users and sessions

Modelled from the spec: `pkg/models/user.go` and `internal/sessions` are not
under src/ (only their tests and callers are). Per section 4.6 of the spec a
User carries an external identity and an ordered project list, and
`User.has_project(p)` is the membership test over `projects`. -/

/-- The session user facts the proxy consumes. -/
structure User where
  identity : String
  projects : List String
deriving Repr, DecidableEq

/-- Modelled from the spec: `User.HasProject`, membership in the project list of
the user (section 4.6; models/user.go is not under src/). -/
def User.hasProject (u : User) (p : String) : Bool :=
  u.projects.contains p

/-! ## Authorization proxy: response walk
(cmd/qvain-backend/api_proxy.go, the recursive implementation) -/

mutual

/-- Transcribes `checkProjectIdentifierMap`: walk the members of an object; a
string value under the key `project_identifier` must be one of the projects
of the user;
objects and arrays are descended whatever their key. -/
def checkProjectIdentifierMap (u : User) : List (String × Json) → Bool
  | [] => true
  | (key, v) :: rest =>
    (match v with
     | .str vv => !(key = "project_identifier" && !(u.hasProject vv))
     | .obj kvs => checkProjectIdentifierMap u kvs
     | .arr xs => checkProjectIdentifierArray u xs
     | _ => true) && checkProjectIdentifierMap u rest

/-- Transcribes `checkProjectIdentifierArray`: walk the elements of an array,
descending into
objects and arrays; other elements are not inspected. -/
def checkProjectIdentifierArray (u : User) : List Json → Bool
  | [] => true
  | v :: rest =>
    (match v with
     | .obj kvs => checkProjectIdentifierMap u kvs
     | .arr xs => checkProjectIdentifierArray u xs
     | _ => true) && checkProjectIdentifierArray u rest

end

/-- Transcribes `checkProjectIdentifier`: dispatch on the parsed response root. -/
def checkProjectIdentifier (u : User) : Json → Bool
  | .obj kvs => checkProjectIdentifierMap u kvs
  | .arr xs => checkProjectIdentifierArray u xs
  | _ => true

mutual

/-- All string values stored under an object key named `project_identifier`,
collected recursively through objects and arrays (member-list part). -/
def projectIdStringsMembers : List (String × Json) → List String
  | [] => []
  | (key, v) :: rest =>
    (match v with
     | .str vv => if key = "project_identifier" then [vv] else []
     | .obj kvs => projectIdStringsMembers kvs
     | .arr xs => projectIdStringsElems xs
     | _ => []) ++ projectIdStringsMembers rest

/-- All string values stored under an object key named `project_identifier`
(array-element part). -/
def projectIdStringsElems : List Json → List String
  | [] => []
  | v :: rest =>
    (match v with
     | .obj kvs => projectIdStringsMembers kvs
     | .arr xs => projectIdStringsElems xs
     | _ => []) ++ projectIdStringsElems rest

end

/-- All string values stored under an object key named `project_identifier`
anywhere in a JSON tree. -/
def projectIdStrings : Json → List String
  | .obj kvs => projectIdStringsMembers kvs
  | .arr xs => projectIdStringsElems xs
  | _ => []

mutual

theorem checkProjectIdentifierMap_eq_all (u : User) :
    ∀ kvs : List (String × Json),
      checkProjectIdentifierMap u kvs = (projectIdStringsMembers kvs).all u.hasProject
  | [] => by simp [checkProjectIdentifierMap, projectIdStringsMembers]
  | (key, v) :: rest => by
    cases v with
    | str vv =>
      by_cases h : key = "project_identifier"
      · simp only [checkProjectIdentifierMap, projectIdStringsMembers, h, if_pos,
          List.all_append, checkProjectIdentifierMap_eq_all u rest, List.all_cons,
          List.all_nil, Bool.and_true]
        cases hp : u.hasProject vv <;> simp
      · simp [checkProjectIdentifierMap, projectIdStringsMembers, h,
          checkProjectIdentifierMap_eq_all u rest]
    | obj kvs =>
      simp [checkProjectIdentifierMap, projectIdStringsMembers, List.all_append,
        checkProjectIdentifierMap_eq_all u rest, checkProjectIdentifierMap_eq_all u kvs]
    | arr xs =>
      simp [checkProjectIdentifierMap, projectIdStringsMembers, List.all_append,
        checkProjectIdentifierMap_eq_all u rest, checkProjectIdentifierArray_eq_all u xs]
    | null =>
      simp [checkProjectIdentifierMap, projectIdStringsMembers,
        checkProjectIdentifierMap_eq_all u rest]
    | bool b =>
      simp [checkProjectIdentifierMap, projectIdStringsMembers,
        checkProjectIdentifierMap_eq_all u rest]
    | num n =>
      simp [checkProjectIdentifierMap, projectIdStringsMembers,
        checkProjectIdentifierMap_eq_all u rest]

theorem checkProjectIdentifierArray_eq_all (u : User) :
    ∀ xs : List Json,
      checkProjectIdentifierArray u xs = (projectIdStringsElems xs).all u.hasProject
  | [] => by simp [checkProjectIdentifierArray, projectIdStringsElems]
  | v :: rest => by
    cases v with
    | obj kvs =>
      simp [checkProjectIdentifierArray, projectIdStringsElems, List.all_append,
        checkProjectIdentifierArray_eq_all u rest, checkProjectIdentifierMap_eq_all u kvs]
    | arr xs =>
      simp [checkProjectIdentifierArray, projectIdStringsElems, List.all_append,
        checkProjectIdentifierArray_eq_all u rest, checkProjectIdentifierArray_eq_all u xs]
    | null =>
      simp [checkProjectIdentifierArray, projectIdStringsElems,
        checkProjectIdentifierArray_eq_all u rest]
    | bool b =>
      simp [checkProjectIdentifierArray, projectIdStringsElems,
        checkProjectIdentifierArray_eq_all u rest]
    | num n =>
      simp [checkProjectIdentifierArray, projectIdStringsElems,
        checkProjectIdentifierArray_eq_all u rest]
    | str vv =>
      simp [checkProjectIdentifierArray, projectIdStringsElems,
        checkProjectIdentifierArray_eq_all u rest]

end

/-- The walk passes exactly when every string stored under a
`project_identifier` key belongs to the project list of the user. -/
theorem checkProjectIdentifier_eq_all (u : User) (j : Json) :
    checkProjectIdentifier u j = (projectIdStrings j).all u.hasProject := by
  match j with
  | .obj kvs => exact checkProjectIdentifierMap_eq_all u kvs
  | .arr xs => exact checkProjectIdentifierArray_eq_all u xs
  | .null | .bool _ | .num _ | .str _ => simp [checkProjectIdentifier, projectIdStrings]

/-! ## Authorization proxy: response post-processing
(`makeProxyModifyResponse` in cmd/qvain-backend/api_proxy.go). The session
has already been resolved at request time; its user is a parameter. -/

/-- An HTTP body: either bytes that parse as JSON (given as the parsed
tree) or bytes that do not. -/
inductive Body where
  | json (j : Json)
  | notJson (raw : String)
deriving Repr, DecidableEq

/-- What the proxy sends back: the upstream body forwarded, or one of this
own JSON error messages of this system (which also carry a fresh error id — not
modelled). -/
inductive RespBody where
  | upstream (b : Body)
  | errorMessage (msg : String)
deriving Repr, DecidableEq

/-- A response as seen by the front-end client. -/
structure ProxyResponse where
  status : Nat
  body : RespBody
deriving Repr, DecidableEq

/-- The response callback: non-2xx passes through, a 2xx body that is not
JSON becomes a 500, a 2xx JSON body is walked for project identifiers and
either forwarded unchanged or replaced with a 403. -/
def proxyModifyResponse (u : User) (status : Nat) (body : Body) : ProxyResponse :=
  if status < 200 ∨ status ≥ 300 then
    { status := status, body := .upstream body }
  else
    match body with
    | .notJson _ => { status := 500, body := .errorMessage "response is not json" }
    | .json j =>
      if checkProjectIdentifier u j then
        { status := status, body := .upstream (.json j) }
      else
        { status := 403, body := .errorMessage "invalid project in response" }

/-! ## Authorization proxy: request handling (`ApiProxy.ServeHTTP`) -/

/-- An incoming (or forwarded) request; the query is the multi-valued
key/value list of the query string. -/
structure ProxyRequest where
  path : String
  method : String
  query : List (String × String)
  body : Body
deriving Repr, DecidableEq

/-- All values of one query key, in order (`url.Values` lookup). -/
def queryValues (q : List (String × String)) (k : String) : List String :=
  (q.filter (fun kv => kv.1 = k)).map (fun kv => kv.2)

/-- Character-list version of Go `strings.HasPrefix`. -/
def listStarts : List Char → List Char → Bool
  | _, [] => true
  | [], _ :: _ => false
  | c :: cs, p :: ps => c = p && listStarts cs ps

/-- Go `strings.HasPrefix`. -/
def strStarts (s pre : String) : Bool :=
  listStarts s.toList pre.toList

/-- Transcribes `addPropertyToRequest`: parse the body, set `key` on the root object or
on each object element of a root array, and re-serialize (Go maps collapse
duplicate keys to the last value and marshal with sorted keys, which is
exactly `Json.normalize` after appending the binding). -/
def addPropertyToRequest (body : Body) (key value : String) : Option Body :=
  match body with
  | .notJson _ => none
  | .json j =>
    match j with
    | .obj kvs => some (.json (Json.normalize (.obj (kvs ++ [(key, .str value)]))))
    | .arr xs => some (.json (Json.normalize (.arr (xs.map (fun x =>
        match x with
        | .obj kvs => .obj (kvs ++ [(key, .str value)])
        | other => other)))))
    | other => some (.json (Json.normalize other))

/-- What `ServeHTTP` did: every error response written to the client, and
the request forwarded to the upstream, if any. (The source writes at most
one error before returning — except for the path check, which writes its
403 and then falls through.) -/
structure ServeResult where
  writes : List (Nat × String)
  forwarded : Option ProxyRequest
deriving Repr, DecidableEq

/-- The tail of `ServeHTTP` after the project checks: non-GET requests get
`allowed_projects` appended to the query and the user identity written into
the body, then the request is forwarded. -/
def serveForward (user : User) (r : ProxyRequest) (w0 : List (Nat × String)) :
    ServeResult :=
  if r.method ≠ "GET" then
    let query := r.query ++
      [("allowed_projects", String.intercalate "," user.projects)]
    let key := if r.method = "POST" then "user_created" else "user_modified"
    match addPropertyToRequest r.body key user.identity with
    | none =>
      { writes := w0 ++ [(500, "invalid json body")], forwarded := none }
    | some body =>
      { writes := w0, forwarded := some { r with query := query, body := body } }
  else
    { writes := w0, forwarded := some r }


/-- Transcribes `ApiProxy.ServeHTTP`: the path check writes its 403
without returning; the session, query, project and body-rewrite stages all
return on error; otherwise the (possibly rewritten) request goes upstream.
`sessionUser` is the result of `UserSessionFromRequest` (`none` = no valid
session, modelled from spec section 4.6 since internal/sessions is not
under src/). -/
def serveHTTP (sessionUser : Option User) (r : ProxyRequest) : ServeResult :=
  let w0 : List (Nat × String) :=
    if strStarts r.path "/directories/" || strStarts r.path "/files/" then []
    else [(403, "access denied")]
  match sessionUser with
  | none => { writes := w0 ++ [(401, "session error")], forwarded := none }
  | some user =>
    if queryValues r.query "allowed_projects" ≠ [] then
      { writes := w0 ++ [(400, "bad request: allowed_projects is not allowed")],
        forwarded := none }
    else if queryValues r.query "project_identifier" ≠ [] then
      { writes := w0 ++ [(400, "bad request: project_identifier is not allowed")],
        forwarded := none }
    else
      match queryValues r.query "project" with
      | [] => serveForward user r w0
      | project :: moreProjects =>
        if moreProjects.length > 0 then
          { writes := w0 ++ [(400, "bad request: multiple projects in query")],
            forwarded := none }
        else if user.projects.length < 1 then
          { writes := w0 ++ [(403, "access denied: user has no projects")],
            forwarded := none }
        else if ¬ user.hasProject project then
          { writes := w0 ++ [(403, "access denied: invalid project")],
            forwarded := none }
        else
          let query :=
            if strStarts r.path "/files/" then
              (r.query.filter (fun kv => kv.1 ≠ "project")) ++
                [("project_identifier", project)]
            else r.query
          serveForward user { r with query := query } w0

/-! ## Record model (models.Dataset as used by pkg/metax) -/

/-- The parts of `models.Dataset` the verified code touches. Timestamps are
Go times as `Nat`, ids are `Uuid` strings. -/
structure DatasetRec where
  id : Uuid := zeroUuid
  family : Nat := 0
  schema : String := ""
  blob : Json := .null
  created : Nat := 0
  modified : Nat := 0
  synced : Nat := 0
  published : Bool := false
  valid : Bool := false
  removed : Bool := false
  creator : Uuid := zeroUuid
  owner : Uuid := zeroUuid
deriving Repr, DecidableEq

/-! ## MetaxDataset validation (pkg/metax dataset.go, the version with
preservation-state exceptions and cumulative_state) -/

/-- Transcribes `validateCumulativeState`: raw value "0" or "1", or "2" when already
published. -/
def validateCumulativeState (stateJson : String) (published : Bool) : Bool :=
  stateJson = "0" || stateJson = "1" || (stateJson = "2" && published)

/-- Transcribes `commonReadOnlyFields`: fields only the upstream may set or change, as
dotted paths (split at the dots). -/
def commonReadOnlyFields : List (List String) :=
  [["research_dataset", "metadata_version_identifier"],
   ["research_dataset", "preferred_identifier"],
   ["research_dataset", "total_files_byte_size"],
   ["preservation_state"]]

/-- Transcribes `MetaxDataset.validate`: common validation — the `cumulative_state` raw
value, when present, must be valid for the published flag of the dataset. -/
def metaxValidate (dataset : DatasetRec) : Except String Unit :=
  let cumulativeState := rawOf (dataset.blob.getPath ["cumulative_state"])
  if cumulativeState ≠ "" ∧ ¬ validateCumulativeState cumulativeState dataset.published then
    .error ("invalid cumulative_state value " ++ cumulativeState)
  else
    .ok ()

/-- One readonly-field comparison from the loop in `ValidateUpdated`: the raws
must be byte-equal, except that a missing top-level field in the update is
allowed (the existing value is then kept). A field is top-level exactly when
its dotted path has one segment. -/
def readOnlyFieldOk (oldBlob newBlob : Json) (field : List String) : Bool :=
  let oldVal := oldBlob.getPath field
  let newVal := newBlob.getPath field
  if oldVal ≠ newVal then
    if field.length = 1 ∧ newVal = none then true
    else false
  else true

/-- Transcribes `checkEqual` from `ValidateUpdated`: gjson raws compared after JSON
normalization (key order irrelevant, duplicate keys collapse to the last
value); an empty raw only equals an empty raw. -/
def checkEqual (a b : Option Json) : Except String Unit :=
  match a, b with
  | none, none => .ok ()
  | none, some _ => .error "changes not allowed"
  | some _, none => .error "changes not allowed"
  | some x, some y =>
    if x.normalize = y.normalize then .ok () else .error "changes not allowed"

/-- The PAS catalog identifier that freezes files and directories. -/
def pasCatalog : String := "urn:nbn:fi:att:data-catalog-pas"

/-- Transcribes `MetaxDataset.ValidateUpdated`: family and schema must
match; the updated record passes common validation; an existing
preservation_state ≥ 80 outside 100 and 130 rejects everything; readonly
fields (plus `cumulative_state` once published) must round-trip; PAS or
superseded records must keep files and directories equal modulo JSON
normalization. -/
def validateUpdated (dataset updated : DatasetRec) : Except String Unit :=
  if dataset.family ≠ updated.family then .error "dataset family mismatch"
  else if dataset.schema ≠ updated.schema then .error "dataset schema mismatch"
  else match metaxValidate updated with
  | .error e => .error e
  | .ok () =>
    let preservationState := gjsonInt (dataset.blob.getPath ["preservation_state"])
    if preservationState ≥ 80 ∧ preservationState ≠ 100 ∧ preservationState ≠ 130 then
      .error "cannot make changes to dataset if preservation_state >= 80 && preservation_state != 100 && preservation_state != 130"
    else
      let readOnlyFields :=
        commonReadOnlyFields ++ (if dataset.published then [["cumulative_state"]] else [])
      if ¬ readOnlyFields.all (readOnlyFieldOk dataset.blob updated.blob) then
        .error "readonly field changed"
      else
        let catalog :=
          let c := gjsonString (dataset.blob.getPath ["data_catalog", "identifier"])
          if c = "" then gjsonString (dataset.blob.getPath ["data_catalog"]) else c
        let isPas := preservationState > 0 ∨ catalog = pasCatalog
        let isOld := gjsonString (dataset.blob.getPath ["next_dataset_version", "identifier"]) ≠ ""
        if isPas ∨ isOld then
          match checkEqual (dataset.blob.getPath ["research_dataset", "files"])
              (updated.blob.getPath ["research_dataset", "files"]) with
          | .error e => .error ("files: " ++ e)
          | .ok () =>
            match checkEqual (dataset.blob.getPath ["research_dataset", "directories"])
                (updated.blob.getPath ["research_dataset", "directories"]) with
            | .error e => .error ("directories: " ++ e)
            | .ok () => .ok ()
        else .ok ()

/-! ## MetaxRawRecord.ToQvain (pkg/metax dataset.go) -/

/-- The `Editor` struct: all fields are string pointers. -/
structure EditorRec where
  identifier : Option String := none
  recordId : Option String := none
  creatorId : Option String := none
  ownerId : Option String := none
  extId : Option String := none
deriving Repr, DecidableEq

/-- The parsed `MetaxRecord` fields `ToQvain` consumes.
`dataCatalog = none` models a nil `*DataCatalog` pointer; `some none` an
object whose `identifier` pointer is nil. Dates are parsed Go times. -/
structure MetaxRec where
  identifier : String := ""
  dataCatalog : Option (Option String) := none
  metadataProviderUser : Option String := none
  dateCreated : Option Nat := none
  dateModified : Option Nat := none
  removed : Bool := false
  editor : Option EditorRec := none
deriving Repr, DecidableEq

/-- Models `json.Unmarshal` of one optional string-pointer field. -/
def unmarshalStrPtr (o : Option Json) : Except String (Option String) :=
  match o with
  | none => .ok none
  | some .null => .ok none
  | some (.str s) => .ok (some s)
  | some _ => .error "cannot unmarshal value into string field"

/-- Models `json.Unmarshal` of an optional `*time.Time` field (RFC3339 string). -/
def unmarshalTimePtr (o : Option Json) : Except String (Option Nat) :=
  match o with
  | none => .ok none
  | some .null => .ok none
  | some (.str s) => if rfc3339Shape s then .ok (some (digitsValue s)) else .error "parsing time"
  | some _ => .error "cannot unmarshal value into time field"

/-- Models `json.Unmarshal` of the `editor` object. -/
def unmarshalEditor (o : Option Json) : Except String (Option EditorRec) :=
  match o with
  | none => .ok none
  | some .null => .ok none
  | some (.obj kvs) => do
    let ident ← unmarshalStrPtr (lookupKey kvs "identifier")
    let rid ← unmarshalStrPtr (lookupKey kvs "record_id")
    let cid ← unmarshalStrPtr (lookupKey kvs "creator_id")
    let oid ← unmarshalStrPtr (lookupKey kvs "owner_id")
    let eid ← unmarshalStrPtr (lookupKey kvs "fd_id")
    .ok (some { identifier := ident, recordId := rid, creatorId := cid, ownerId := oid,
                extId := eid })
  | some _ => .error "cannot unmarshal value into editor field"

/-- Models `json.Unmarshal` of the `data_catalog` object (a `*DataCatalog`). -/
def unmarshalDataCatalog (o : Option Json) : Except String (Option (Option String)) :=
  match o with
  | none => .ok none
  | some .null => .ok none
  | some (.obj kvs) => do
    let ident ← unmarshalStrPtr (lookupKey kvs "identifier")
    .ok (some ident)
  | some _ => .error "cannot unmarshal value into data_catalog field"

/-- Models `json.Unmarshal` of a raw Metax record into the `MetaxRecord` fields the
code reads (only the typed fields can fail; `research_dataset` and
`contract` are raw messages). -/
def parseMetaxRecord (raw : Json) : Except String MetaxRec :=
  match raw with
  | .obj kvs => do
    let identifier ←
      match lookupKey kvs "identifier" with
      | none => pure ""
      | some .null => pure ""
      | some (.str s) => pure s
      | some _ => .error "cannot unmarshal value into identifier field"
    let removed ←
      match lookupKey kvs "removed" with
      | none => pure false
      | some .null => pure false
      | some (.bool b) => pure b
      | some _ => .error "cannot unmarshal value into removed field"
    let dataCatalog ← unmarshalDataCatalog (lookupKey kvs "data_catalog")
    let mpu ← unmarshalStrPtr (lookupKey kvs "metadata_provider_user")
    let dateCreated ← unmarshalTimePtr (lookupKey kvs "date_created")
    let dateModified ← unmarshalTimePtr (lookupKey kvs "date_modified")
    let editor ← unmarshalEditor (lookupKey kvs "editor")
    .ok { identifier := identifier, dataCatalog := dataCatalog,
          metadataProviderUser := mpu, dateCreated := dateCreated,
          dateModified := dateModified, removed := removed, editor := editor }
  | _ => .error "cannot unmarshal value into MetaxRecord"

/-- The application marker in editor metadata. -/
def appIdent : String := "qvain"

/-- Transcribes `MetaxRawRecord.GetQvainId`: no or foreign editor metadata yields no id
(new dataset); a present but unparsable record id is `ErrInvalidId`. -/
def getQvainId (mrec : MetaxRec) : Except String (Option Uuid) :=
  match mrec.editor with
  | none => .ok none
  | some ed =>
    match ed.identifier with
    | none => .ok none
    | some ident =>
      if ident ≠ appIdent then .ok none
      else
        match ed.recordId with
        | none => .ok none
        | some rid =>
          match uuidFromString rid with
          | some qid => .ok (some qid)
          | none => .error "invalid id"

/-- Modelled from the spec: the static catalog-identifier → schema-key
lookup table (spec sections 3 and 4.1; the source file of the table is not under
src/, only its users). The two schema keys the spec names are `metax-ida`
and `metax-att`. -/
def CatalogIdentifiers : List (String × String) :=
  [("urn:nbn:fi:att:data-catalog-ida", "metax-ida"),
   ("urn:nbn:fi:att:data-catalog-att", "metax-att")]

/-- Association-list lookup for the catalog table. -/
def lookupCatalog : List (String × String) → String → Option String
  | [], _ => none
  | kv :: rest, k => if kv.1 = k then some kv.2 else lookupCatalog rest k

/-- The outcome of `ToQvain`: a dataset plus the `IsNew` flag, an error, or
a crash (`panic`) from dereferencing a nil pointer. -/
inductive ToQvainResult where
  | ok (ds : DatasetRec) (isNew : Bool)
  | err (msg : String) (isNew : Bool)
  | panic
deriving Repr, DecidableEq

/-- The Metax schema family constant. -/
def MetaxDatasetFamily : Nat := 2

/-- Transcribes `MetaxRawRecord.ToQvain`. Here `now` stands for `time.Now()` in
`timeOrNow`. Note the catalog line dereferences
`mrec.DataCatalog.Identifier` without a nil check: a record with no (or a
null) `data_catalog`, or one without a string `identifier` inside it,
crashes instead of returning an error. -/
def toQvain (now : Nat) (raw : Json) : ToQvainResult :=
  match parseMetaxRecord raw with
  | .error e => .err e false
  | .ok mrec =>
    match getQvainId mrec with
    | .error e => .err e false
    | .ok qidOpt =>
      let isNew := qidOpt.isNone
      let base : DatasetRec := { removed := mrec.removed }
      let base :=
        if isNew then
          { base with created := mrec.dateCreated.getD now,
                      modified := mrec.dateModified.getD now }
        else
          { base with id := qidOpt.getD zeroUuid }
      match mrec.dataCatalog with
      | none => .panic
      | some none => .panic
      | some (some catalogIdent) =>
        match lookupCatalog CatalogIdentifiers catalogIdent with
        | none => .err ("Metax dataset schema unknown or missing: " ++ catalogIdent) isNew
        | some schema =>
          .ok { base with family := MetaxDatasetFamily, schema := schema, blob := raw } isNew

/-! ## Sync engine (internal/shared sync.go, `syncBatch`) -/

/-- First-match association-list lookup (Go map read; keys are unique in
the maps the sync code builds). -/
def lookupAssoc {β : Type} : List (String × β) → String → Option β
  | [], _ => none
  | kv :: rest, k => if kv.1 = k then some kv.2 else lookupAssoc rest k

/-- Go map assignment: replace the binding if present, else add it. -/
def upsertAssocG {β : Type} : List (String × β) → String → β → List (String × β)
  | [], k, v => [(k, v)]
  | kv :: rest, k, v =>
    if kv.1 = k then (k, v) :: rest else kv :: upsertAssocG rest k v

/-- The two local indexes `syncBatch` builds:
`metaxToQvain` maps a Metax identifier to the local dataset id, and
`syncTime` maps a local dataset id to its last synced time. -/
structure SyncEnv where
  metaxToQvain : List (String × Uuid) := []
  syncTime : List (Uuid × Nat) := []
deriving Repr, DecidableEq

/-- Reads `qvainDatasetSyncTime[id]`: a missing key reads as the zero time. -/
def SyncEnv.syncTimeOf (env : SyncEnv) (id : Uuid) : Nat :=
  (lookupAssoc env.syncTime id).getD 0

/-- Build the indexes from the local datasets of the user, as `syncBatch` does:
nothing is indexed when the total hint of the stream is 0; only records of the
Metax family are indexed; datasets without a Metax identifier get no
reverse entry; on identifier collision the first dataset wins. -/
def buildSyncEnv (total : Nat) (locals : List DatasetRec) : SyncEnv :=
  if total = 0 then {} else
    locals.foldl
      (fun env ds =>
        if ds.family ≠ MetaxDatasetFamily then env
        else
          let env := { env with syncTime := upsertAssocG env.syncTime ds.id ds.synced }
          let metaxIdentifier := GetIdentifier ds.blob
          if metaxIdentifier = "" then env
          else if (lookupAssoc env.metaxToQvain metaxIdentifier).isSome then env
          else { env with metaxToQvain := env.metaxToQvain ++ [(metaxIdentifier, ds.id)] })
      {}

/-- Models `ToQvain` followed by the identifier-adoption step: an incoming record
that looks new but whose Metax identifier is already mapped locally adopts
the existing local id and stops being new. -/
def resolveRecord (env : SyncEnv) (now : Nat) (raw : Json) : ToQvainResult :=
  match toQvain now raw with
  | .ok ds true =>
    let identifier := GetIdentifier raw
    if identifier ≠ "" then
      match lookupAssoc env.metaxToQvain identifier with
      | some existingId => .ok { ds with id := existingId } false
      | none => .ok ds true
    else .ok ds true
  | r => r

/-- A write the sync batch issues against the datastore transaction. -/
inductive BatchOp where
  | createWithMetadata (ds : DatasetRec)
  | update (id : Uuid) (blob : Json)
  | updateSynced (id : Uuid)
  | delete (id : Uuid)
deriving Repr, DecidableEq

/-- Per-record outcome of the sync loop body. `crashed` models a Go panic
(nil dereference inside `ToQvain`). -/
inductive StepOutcome where
  | written
  | deleted
  | skipped
  | failed
  | crashed
deriving Repr, DecidableEq

/-- The body of the consumer loop of `syncBatch` for one incoming record:
parse and resolve; removed records are skipped when the local id is unknown
or never synced and deleted otherwise; new records are created (with a
fresh id, the user as creator and owner, published and valid set); known
records are `UpdateSynced`+skipped when the upstream modification time is
set and not after the local synced time, else updated. The third component
reports whether the fresh id was consumed. -/
def syncStep (env : SyncEnv) (uid : Uuid) (freshId : Uuid) (now : Nat) (raw : Json) :
    List BatchOp × StepOutcome × Bool :=
  match resolveRecord env now raw with
  | .panic => ([], .crashed, false)
  | .err _ _ => ([], .failed, false)
  | .ok ds isNew =>
    if ds.removed then
      if env.syncTimeOf ds.id = 0 then ([], .skipped, false)
      else ([.delete ds.id], .deleted, false)
    else if isNew then
      let ds := { ds with id := freshId, creator := uid, owner := uid,
                          published := true, valid := true }
      ([.createWithMetadata ds], .written, true)
    else
      let modified := GetModificationDate ds.blob
      if modified ≠ 0 ∧ ¬ modified > env.syncTimeOf ds.id then
        ([.updateSynced ds.id], .skipped, false)
      else
        ([.update ds.id ds.blob], .written, false)

/-- The running state of one sync batch: issued datastore writes, the
outcome tally, and the unused fresh-id supply. -/
structure SyncRun where
  ops : List BatchOp := []
  read : Nat := 0
  written : Nat := 0
  deleted : Nat := 0
  skipped : Nat := 0
  failed : Nat := 0
  crashed : Bool := false
  supply : List Uuid := []
deriving Repr, DecidableEq

/-- Consume one stream record (no-op once crashed, as the process is gone). -/
def syncRunStep (env : SyncEnv) (uid : Uuid) (now : Nat) (st : SyncRun) (raw : Json) :
    SyncRun :=
  if st.crashed then st
  else
    let (ops, outcome, used) := syncStep env uid (st.supply.headD zeroUuid) now raw
    { st with
      read := st.read + 1
      ops := st.ops ++ ops
      supply := if used then st.supply.tail else st.supply
      written := st.written + (if outcome = .written then 1 else 0)
      deleted := st.deleted + (if outcome = .deleted then 1 else 0)
      skipped := st.skipped + (if outcome = .skipped then 1 else 0)
      failed := st.failed + (if outcome = .failed then 1 else 0)
      crashed := outcome = .crashed }

/-- One whole sync batch over the records of the stream. -/
def syncRun (env : SyncEnv) (uid : Uuid) (now : Nat) (supply : List Uuid)
    (raws : List Json) : SyncRun :=
  raws.foldl (syncRunStep env uid now) { supply := supply }

/-! ## Publication engine (internal/shared/publish.go) -/

/-- An upstream `ApiError` (status code and message). -/
structure ApiErr where
  status : Nat
  msg : String
deriving Repr, DecidableEq

/-- Models `sjson.SetBytes` with a plain top-level key: replace the first binding
or append; the code only applies it to object blobs. -/
def setTopKey (j : Json) (k : String) (v : Json) : Json :=
  match j with
  | .obj kvs => .obj (upsertAssoc kvs k v)
  | other => other

/-- The upstream client behavior a publish run sees. Modelled from the spec
(section 4.2): the Metax client source is not under src/; `store` answers
`create`/`update` and `getId` answers the derived-version fetch, each
either a response body or an `ApiError`. -/
structure PublishApi where
  store : Json → Except ApiErr Json
  getId : String → Except ApiErr Json

/-- A datastore write issued by `Publish`. `storePublished` is the
`db.StorePublished` call; `storeNewVersion` is the
`db.WithTransaction(tx.StoreNewVersion ...)` call — two separate datastore
operations, issued in this order. -/
inductive DbAction where
  | storePublished (id : Uuid) (blob : Json) (synced : Nat)
  | storeNewVersion (parentId newId : Uuid) (synced : Nat) (blob : Json)
deriving Repr, DecidableEq

/-- What a publish run did: the datastore writes that completed, in order,
and the returned `(upstream id, new upstream id or empty, new local id)`
triple or error. -/
structure PublishOutcome where
  dbActions : List DbAction
  result : Except String (String × String × Option Uuid)
deriving Repr

/-- The blob `Publish` sends upstream: `user_modified` stamped for an
already-published dataset, `user_created` otherwise. -/
def stampUser (dataset : DatasetRec) (owner : User) : Json :=
  if dataset.published then setTopKey dataset.blob "user_modified" (.str owner.identity)
  else setTopKey dataset.blob "user_created" (.str owner.identity)

/-- The synced time extracted from an upstream response: its modification
date, or the current time when that is unset. -/
def syncedFallback (res : Json) (now : Nat) : Nat :=
  if GetModificationDate res = 0 then now else GetModificationDate res

/-- Transcribes `shared.Publish`: stamp `user_created` (unpublished) or
`user_modified` (published) into the blob; send it upstream; require an
`identifier` in the response; record the response via `StorePublished`
(synced = response modification date, falling back to `now`); then, if the
response carries `new_version_created.identifier`, fetch that record and
store it via `StoreNewVersion` in its own transaction. The dataset is the
one loaded with `GetWithOwner`; `freshId` is the minted local id. -/
def publish (api : PublishApi) (dataset : DatasetRec) (owner : User)
    (freshId : Uuid) (now : Nat) : PublishOutcome :=
  match api.store (stampUser dataset owner) with
  | .error e => { dbActions := [], result := .error ("api error " ++ toString e.status ++ ": " ++ e.msg) }
  | .ok res =>
    let versionId := GetIdentifier res
    if versionId = "" then
      { dbActions := [], result := .error "no identifier in dataset" }
    else
      let acts := [DbAction.storePublished dataset.id res (syncedFallback res now)]
      let newVersionId := MaybeNewVersionId res
      if newVersionId ≠ "" then
        match api.getId newVersionId with
        | .error e =>
          { dbActions := acts,
            result := .error ("api error " ++ toString e.status ++ ": " ++ e.msg) }
        | .ok newVersion =>
          { dbActions := acts ++
              [DbAction.storeNewVersion dataset.id freshId (syncedFallback newVersion now) newVersion],
            result := .ok (versionId, newVersionId, some freshId) }
      else
        { dbActions := acts, result := .ok (versionId, "", none) }

/-- What an unpublish-and-delete run did: whether the local record was
deleted, and the returned error, if any. -/
structure UnpublishOutcome where
  localDeleted : Bool
  result : Except String Unit
deriving Repr

/-- Transcribes `shared.UnpublishAndDelete`: the upstream soft-delete is
attempted with the blob of the record; ANY upstream error — a 404 included —
returns before the local `db.Delete`. `apiDelete` is the upstream client
method `Delete`, modelled from the spec (section 4.2: the client source is not
under src/; non-2xx responses surface as `ApiError`). -/
def unpublishAndDelete (apiDelete : Json → Except ApiErr Unit) (dataset : DatasetRec) :
    UnpublishOutcome :=
  match apiDelete dataset.blob with
  | .error e =>
    { localDeleted := false,
      result := .error ("api error " ++ toString e.status ++ ": " ++ e.msg) }
  | .ok () => { localDeleted := true, result := .ok () }

/-! ## Claim theorems: authorization proxy -/

/-- Claim C1: for every proxied request whose upstream response is 2xx with
a JSON body, the walk descends recursively through maps and arrays under any
key; if any string under a `project_identifier` key is not one of the
projects of the session user the response becomes 403 "invalid project in
response", otherwise the body is forwarded unchanged; and the walk depends
only on the strings stored under `project_identifier` keys (values under
other keys are never inspected). -/
theorem c1_response_walk_enforces_projects (u : User) (status : Nat) (j : Json)
    (h1 : 200 ≤ status) (h2 : status < 300) :
    proxyModifyResponse u status (.json j) =
      (if (projectIdStrings j).all u.hasProject then
        { status := status, body := .upstream (.json j) }
      else
        { status := 403, body := .errorMessage "invalid project in response" }) ∧
    checkProjectIdentifier u j = (projectIdStrings j).all u.hasProject := by
  refine ⟨?_, checkProjectIdentifier_eq_all u j⟩
  simp only [proxyModifyResponse]
  rw [if_neg (by omega), checkProjectIdentifier_eq_all]

/-- Witness for C1, at the leak test case of the spec: user with projects [P1],
body `(results: [(project_identifier: P1), (project_identifier: P2)])`:
the response is replaced by the 403. -/
theorem c1_response_walk_enforces_projects_witness :
    proxyModifyResponse ⟨"user", ["P1"]⟩ 200
        (.json (.obj [("results", .arr
          [.obj [("project_identifier", .str "P1")],
           .obj [("project_identifier", .str "P2")]])])) =
      { status := 403, body := .errorMessage "invalid project in response" } := by
  rw [(c1_response_walk_enforces_projects ⟨"user", ["P1"]⟩ 200
    (.obj [("results", .arr
      [.obj [("project_identifier", .str "P1")],
       .obj [("project_identifier", .str "P2")]])])
    (by norm_num) (by norm_num)).1]
  simp [projectIdStrings, projectIdStringsMembers, projectIdStringsElems, User.hasProject]

/-- Claim C2 (code bug): a request whose path starts with neither
`/directories/` nor `/files/` gets the 403 "access denied" written, but —
the path check lacking a return — the handler continues and the request is
still forwarded to the upstream. -/
theorem c2_bad_path_written_403_but_still_forwarded :
    serveHTTP (some ⟨"jack", ["P1"]⟩) ⟨"/datasets/1", "GET", [], .json .null⟩ =
      { writes := [(403, "access denied")],
        forwarded := some ⟨"/datasets/1", "GET", [], .json .null⟩ } := by
  simp [serveHTTP, serveForward, queryValues, strStarts, listStarts, String.toList]

/-- Claim C10: a 2xx upstream response whose body is not valid JSON is
replaced with a 500 "response is not json"; the unparsable body is never
forwarded. -/
theorem c10_nonjson_2xx_becomes_500 (u : User) (status : Nat) (raw : String)
    (h1 : 200 ≤ status) (h2 : status < 300) :
    proxyModifyResponse u status (.notJson raw) =
      { status := 500, body := .errorMessage "response is not json" } := by
  simp only [proxyModifyResponse]
  rw [if_neg (by omega)]

/-- Witness for C10: a 200 response with body "oops" becomes the 500. -/
theorem c10_nonjson_2xx_becomes_500_witness :
    proxyModifyResponse ⟨"user", ["P1"]⟩ 200 (.notJson "oops") =
      { status := 500, body := .errorMessage "response is not json" } :=
  c10_nonjson_2xx_becomes_500 ⟨"user", ["P1"]⟩ 200 "oops" (by norm_num) (by norm_num)

/-! ## Claim theorems: publication engine -/

/-- Counterexample to claim C3: a concrete publish run where the upstream
store succeeds with a `new_version_created.identifier` but the fetch of the
derived record fails; `StorePublished` has already landed (the parent
reflects the new upstream state) while no derived Record is stored — the
two writes are not one transaction, so it is not "both or neither". -/
theorem c3_publish_counterexample :
    (publish
        ⟨fun _ => .ok (.obj [("identifier", .str "urn:y"),
            ("new_version_created", .obj [("identifier", .str "urn:z")])]),
         fun _ => .error ⟨500, "boom"⟩⟩
        { id := "053bffbcc41edad4853bea91fc42ea18", blob := .obj [], published := false }
        ⟨"jack", ["P1"]⟩ "053bffbcc41edad4853bea91fc42ea19" 7) =
      { dbActions := [.storePublished "053bffbcc41edad4853bea91fc42ea18"
          (.obj [("identifier", .str "urn:y"),
            ("new_version_created", .obj [("identifier", .str "urn:z")])]) 7],
        result := .error "api error 500: boom" } := by
  simp [publish, stampUser, setTopKey, upsertAssoc, GetIdentifier, MaybeNewVersionId,
    syncedFallback, GetModificationDate, jsonTime, parseRFC3339, rfc3339Shape,
    gjsonString, Json.getPath, Json.getKey, lookupKey]
  rfl

/-- Claim C3 as amended: the publish response is recorded via
`StorePublished` first and the derived record is stored afterwards through
`StoreNewVersion` in its own transaction; when the derived-version fetch
succeeds both writes land (in that order), and when it fails only
`StorePublished` has landed and the call errors. -/
theorem c3_publish_derived_version_storage (api : PublishApi) (ds : DatasetRec)
    (owner : User) (freshId : Uuid) (now : Nat) (res : Json)
    (hstore : api.store (stampUser ds owner) = .ok res)
    (hid : GetIdentifier res ≠ "")
    (hnew : MaybeNewVersionId res ≠ "") :
    (∀ nv, api.getId (MaybeNewVersionId res) = .ok nv →
      (publish api ds owner freshId now).dbActions =
        [.storePublished ds.id res (syncedFallback res now),
         .storeNewVersion ds.id freshId (syncedFallback nv now) nv]) ∧
    (∀ e, api.getId (MaybeNewVersionId res) = .error e →
      (publish api ds owner freshId now).dbActions =
          [.storePublished ds.id res (syncedFallback res now)] ∧
        (publish api ds owner freshId now).result =
          .error ("api error " ++ toString e.status ++ ": " ++ e.msg)) := by
  constructor
  · intro nv hget
    simp only [publish, hstore, if_neg (by simpa using hid), if_pos hnew, hget]
    simp
  · intro e hget
    simp only [publish, hstore, if_neg (by simpa using hid), if_pos hnew, hget]
    simp

/-- Witness for the amended C3, on a publish whose derived-version fetch
succeeds: both writes land, in order. -/
theorem c3_publish_derived_version_storage_witness :
    (publish
        ⟨fun _ => .ok (.obj [("identifier", .str "urn:y"),
            ("new_version_created", .obj [("identifier", .str "urn:z")])]),
         fun _ => .ok (.obj [("identifier", .str "urn:z")])⟩
        { id := "053bffbcc41edad4853bea91fc42ea18", blob := .obj [], published := false }
        ⟨"jack", ["P1"]⟩ "053bffbcc41edad4853bea91fc42ea19" 7).dbActions =
      [.storePublished "053bffbcc41edad4853bea91fc42ea18"
          (.obj [("identifier", .str "urn:y"),
            ("new_version_created", .obj [("identifier", .str "urn:z")])]) 7,
       .storeNewVersion "053bffbcc41edad4853bea91fc42ea18"
          "053bffbcc41edad4853bea91fc42ea19" 7 (.obj [("identifier", .str "urn:z")])] := by
  rw [(c3_publish_derived_version_storage
      ⟨fun _ => .ok (.obj [("identifier", .str "urn:y"),
          ("new_version_created", .obj [("identifier", .str "urn:z")])]),
       fun _ => .ok (.obj [("identifier", .str "urn:z")])⟩
      { id := "053bffbcc41edad4853bea91fc42ea18", blob := .obj [], published := false }
      ⟨"jack", ["P1"]⟩ "053bffbcc41edad4853bea91fc42ea19" 7
      (.obj [("identifier", .str "urn:y"),
          ("new_version_created", .obj [("identifier", .str "urn:z")])])
      rfl
      (by simp [GetIdentifier, gjsonString, Json.getKey, lookupKey])
      (by simp [MaybeNewVersionId, gjsonString, Json.getPath, Json.getKey, lookupKey])).1
    (.obj [("identifier", .str "urn:z")]) rfl]
  simp [syncedFallback, GetModificationDate, jsonTime, parseRFC3339, rfc3339Shape,
    gjsonString, Json.getKey, lookupKey]

/-- Counterexample to claim C4: when the upstream delete fails with a 404
`ApiError` (NotFound), `UnpublishAndDelete` returns the error without
deleting the local record — the NotFound branch of the claim says it would be
deleted. -/
theorem c4_unpublish_notfound_counterexample :
    (unpublishAndDelete (fun _ => .error ⟨404, "not found"⟩)
        { id := "053bffbcc41edad4853bea91fc42ea18", blob := .obj [] }).localDeleted
      = false ∧
    (unpublishAndDelete (fun _ => .error ⟨404, "not found"⟩)
        { id := "053bffbcc41edad4853bea91fc42ea18", blob := .obj [] }).result
      = .error "api error 404: not found" := by
  constructor <;> rfl

/-- Claim C4 as amended: `unpublish_and_delete` fails closed on every
upstream error — NotFound included — and deletes the local record exactly
when the upstream delete succeeds. -/
theorem c4_unpublish_fails_closed (apiDelete : Json → Except ApiErr Unit)
    (ds : DatasetRec) :
    (∀ e, apiDelete ds.blob = .error e →
      (unpublishAndDelete apiDelete ds).localDeleted = false) ∧
    (apiDelete ds.blob = .ok () →
      (unpublishAndDelete apiDelete ds).localDeleted = true ∧
      (unpublishAndDelete apiDelete ds).result = .ok ()) := by
  constructor
  · intro e he
    simp [unpublishAndDelete, he]
  · intro hok
    simp [unpublishAndDelete, hok]

/-- Witness for the amended C4, at the 404 case: not deleted locally. -/
theorem c4_unpublish_fails_closed_witness :
    (unpublishAndDelete (fun _ => .error ⟨404, "not found"⟩)
        { id := "053bffbcc41edad4853bea91fc42ea18", blob := .obj [] }).localDeleted
      = false :=
  (c4_unpublish_fails_closed (fun _ => .error ⟨404, "not found"⟩)
      { id := "053bffbcc41edad4853bea91fc42ea18", blob := .obj [] }).1
    ⟨404, "not found"⟩ rfl

/-! ## Claim theorems: record model -/

/-- Claim C9 (code bug): `ToQvain` on a record with no `data_catalog`
dereferences a nil pointer and crashes instead of returning the
unknown-catalog error; with a `data_catalog` whose identifier is present
but not in the lookup table it does return the error. -/
theorem c9_toqvain_missing_catalog_crashes :
    toQvain 0 (.obj [("identifier", .str "urn:x"), ("removed", .bool true)]) = .panic ∧
    toQvain 0 (.obj [("identifier", .str "urn:x"),
        ("data_catalog", .obj [("identifier", .str "urn:zzz")])]) =
      .err ("Metax dataset schema unknown or missing: urn:zzz") true := by
  constructor <;> decide

/-! ## Helper lemmas for the validation and sync claims -/

theorem checkEqual_self (a : Option Json) : checkEqual a a = .ok () := by
  cases a <;> simp [checkEqual]

theorem readOnlyFieldOk_self (b : Json) (f : List String) :
    readOnlyFieldOk b b f = true := by
  simp [readOnlyFieldOk]

/-- A passing readonly-field check means the raw of the update equals the
existing one, or the field is top-level and absent from the update. -/
theorem readOnlyFieldOk_spec (oldB newB : Json) (f : List String)
    (h : readOnlyFieldOk oldB newB f = true) :
    newB.getPath f = oldB.getPath f ∨ (f.length = 1 ∧ newB.getPath f = none) := by
  by_cases he : oldB.getPath f = newB.getPath f
  · exact .inl he.symm
  · right
    unfold readOnlyFieldOk at h
    rw [if_pos he] at h
    by_cases hc : f.length = 1 ∧ newB.getPath f = none
    · exact hc
    · rw [if_neg hc] at h
      exact absurd h (by simp)

/-- Lemma: `GetModificationDate` is the maximum of the four parsed date fields
(with 0 = unset): the latest set one, or 0 when none is set. -/
theorem getModificationDate_eq_max (b : Json) :
    GetModificationDate b =
      (((jsonTime (b.getKey "date_created")).max
          (jsonTime (b.getKey "date_modified"))).max
        (jsonTime (b.getKey "date_deprecated"))).max
        (jsonTime (b.getKey "date_removed")) := by
  simp only [GetModificationDate, Nat.max_def]
  split_ifs <;> omega

/-! ## Claim theorems: validation invariants -/

/-- Counterexample to claim C5: a published record whose update omits the
top-level readonly field `preservation_state` (so the raws differ
byte-for-byte) is nevertheless accepted — the loop skips missing top-level
fields. -/
theorem c5_missing_toplevel_readonly_accepted :
    validateUpdated
        { family := 2, schema := "metax-ida",
          blob := .obj [("identifier", .str "urn:q"), ("preservation_state", .num 5)],
          published := true }
        { family := 2, schema := "metax-ida",
          blob := .obj [("identifier", .str "urn:q")], published := true }
      = .ok () ∧
    (Json.obj [("identifier", .str "urn:q"), ("preservation_state", .num 5)]).getPath
        ["preservation_state"] ≠
      (Json.obj [("identifier", .str "urn:q")]).getPath ["preservation_state"] := by
  constructor
  · simp [validateUpdated, metaxValidate, rawOf, gjsonInt, gjsonString,
      validateCumulativeState, commonReadOnlyFields, readOnlyFieldOk, checkEqual,
      pasCatalog, Json.getPath, Json.getKey, lookupKey]
  · simp [Json.getPath, Json.getKey, lookupKey]

/-- Claim C5 as amended: for a published record, an accepted update keeps
every readonly field byte-for-byte — except that the top-level fields
(`preservation_state`, `cumulative_state`) may instead be absent from the
update, in which case the existing value is kept by the datastore merge. -/
theorem c5_readonly_fields_roundtrip (d u : DatasetRec)
    (hpub : d.published = true)
    (hok : validateUpdated d u = .ok ()) :
    ∀ f ∈ commonReadOnlyFields ++ [["cumulative_state"]],
      u.blob.getPath f = d.blob.getPath f ∨ (f.length = 1 ∧ u.blob.getPath f = none) := by
  intro f hf
  simp only [validateUpdated, hpub, if_true] at hok
  by_cases h1 : d.family ≠ u.family
  · rw [if_pos h1] at hok
    exact absurd hok (by simp)
  rw [if_neg h1] at hok
  by_cases h2 : d.schema ≠ u.schema
  · rw [if_pos h2] at hok
    exact absurd hok (by simp)
  rw [if_neg h2] at hok
  rcases hmv : metaxValidate u with e | ⟨⟩
  · rw [hmv] at hok
    simp at hok
  rw [hmv] at hok
  simp only [] at hok
  by_cases h3 : gjsonInt (d.blob.getPath ["preservation_state"]) ≥ 80 ∧
      gjsonInt (d.blob.getPath ["preservation_state"]) ≠ 100 ∧
      gjsonInt (d.blob.getPath ["preservation_state"]) ≠ 130
  · rw [if_pos h3] at hok
    exact absurd hok (by simp)
  rw [if_neg h3] at hok
  by_cases h4 : ¬ (commonReadOnlyFields ++ [["cumulative_state"]]).all
      (readOnlyFieldOk d.blob u.blob) = true
  · rw [if_pos h4] at hok
    exact absurd hok (by simp)
  rw [if_neg h4] at hok
  have hall : (commonReadOnlyFields ++ [["cumulative_state"]]).all
      (readOnlyFieldOk d.blob u.blob) = true := by
    by_contra hco
    exact h4 hco
  exact readOnlyFieldOk_spec d.blob u.blob f (List.all_eq_true.mp hall f hf)

/-- Witness for the amended C5, at the counterexample pair and the field
`preservation_state`: the accepted update left the field absent. -/
theorem c5_readonly_fields_roundtrip_witness :
    (Json.obj [("identifier", .str "urn:q")]).getPath ["preservation_state"] =
        (Json.obj [("identifier", .str "urn:q"),
          ("preservation_state", .num 5)]).getPath ["preservation_state"] ∨
      ((["preservation_state"] : List String).length = 1 ∧
        (Json.obj [("identifier", .str "urn:q")]).getPath ["preservation_state"] = none) :=
  c5_readonly_fields_roundtrip
    { family := 2, schema := "metax-ida",
      blob := .obj [("identifier", .str "urn:q"), ("preservation_state", .num 5)],
      published := true }
    { family := 2, schema := "metax-ida",
      blob := .obj [("identifier", .str "urn:q")], published := true }
    rfl
    (by simp [validateUpdated, metaxValidate, rawOf, gjsonInt, gjsonString,
      validateCumulativeState, commonReadOnlyFields, readOnlyFieldOk, checkEqual,
      pasCatalog, Json.getPath, Json.getKey, lookupKey])
    ["preservation_state"] (by simp [commonReadOnlyFields])

/-- Counterexample to claim C8: identity is not always a valid update. A
record whose existing `preservation_state` is 80 is frozen, so
`validateUpdated r r` fails; and an unpublished record whose
`cumulative_state` is 2 (valid only after publication) also rejects the
identity update. Together the two runs force both preconditions of the
amended claim. -/
theorem c8_identity_update_counterexample :
    validateUpdated
        { family := 2, schema := "metax-ida",
          blob := .obj [("preservation_state", .num 80)], published := true }
        { family := 2, schema := "metax-ida",
          blob := .obj [("preservation_state", .num 80)], published := true }
      = .error "cannot make changes to dataset if preservation_state >= 80 && preservation_state != 100 && preservation_state != 130" ∧
    validateUpdated
        { family := 2, schema := "metax-ida",
          blob := .obj [("cumulative_state", .num 2)], published := false }
        { family := 2, schema := "metax-ida",
          blob := .obj [("cumulative_state", .num 2)], published := false }
      = .error "invalid cumulative_state value 2" := by
  have h2 : toString (2 : Int) = "2" := rfl
  constructor
  · simp [validateUpdated, metaxValidate, rawOf, gjsonInt, Json.getPath, Json.getKey,
      lookupKey]
  · simp [validateUpdated, metaxValidate, rawOf, Json.render, validateCumulativeState,
      gjsonInt, Json.getPath, Json.getKey, lookupKey, h2, readOnlyFieldOk,
      commonReadOnlyFields, checkEqual, gjsonString, pasCatalog]

/-- Claim C8 as amended: `validateUpdated r r` succeeds provided the
`preservation_state` of the record is below 80 or one of 100 and 130, and its
`cumulative_state` raw value, when present, is valid for the published
flag of the record. -/
theorem c8_identity_update_accepted (r : DatasetRec)
    (hps : gjsonInt (r.blob.getPath ["preservation_state"]) < 80 ∨
           gjsonInt (r.blob.getPath ["preservation_state"]) = 100 ∨
           gjsonInt (r.blob.getPath ["preservation_state"]) = 130)
    (hcs : rawOf (r.blob.getPath ["cumulative_state"]) = "" ∨
           validateCumulativeState (rawOf (r.blob.getPath ["cumulative_state"]))
             r.published = true) :
    validateUpdated r r = .ok () := by
  have hval : metaxValidate r = .ok () := by
    unfold metaxValidate
    rcases hcs with h | h
    · rw [if_neg (by simp [h])]
    · rw [if_neg (by simp [h])]
  have hro : (commonReadOnlyFields ++
      (if r.published then [["cumulative_state"]] else [])).all
        (readOnlyFieldOk r.blob r.blob) = true := by
    rw [List.all_eq_true]
    intro f _
    exact readOnlyFieldOk_self r.blob f
  simp only [validateUpdated, hval]
  rw [if_neg (by simp), if_neg (by simp)]
  rw [if_neg (by rcases hps with h | h | h <;> omega)]
  rw [if_neg (by simp [hro])]
  simp only [checkEqual_self]
  split_ifs <;> rfl

/-- Witness for the amended C8: an identity update of a published record
with `preservation_state` 100 and no `cumulative_state` is accepted. -/
theorem c8_identity_update_accepted_witness :
    validateUpdated
        { family := 2, schema := "metax-ida",
          blob := .obj [("preservation_state", .num 100)], published := true }
        { family := 2, schema := "metax-ida",
          blob := .obj [("preservation_state", .num 100)], published := true }
      = .ok () :=
  c8_identity_update_accepted
    { family := 2, schema := "metax-ida",
      blob := .obj [("preservation_state", .num 100)], published := true }
    (by right; left; rfl)
    (by left; rfl)

/-! ## Claim theorems: sync engine -/

/-- Claim C6: for an incoming non-removed record that maps to an existing
local Record, the effective upstream modification time is the latest set
value among the four date fields (`Nat.max` with 0 = unset), and the batch
either marks the record synced (outcome Skipped) when that time is set and
not strictly after the local synced time, or updates the blob (outcome
Written) otherwise. -/
theorem c6_sync_update_or_skip (env : SyncEnv) (uid freshId : Uuid) (now : Nat)
    (raw : Json) (ds : DatasetRec)
    (hres : resolveRecord env now raw = .ok ds false)
    (hrem : ds.removed = false) :
    GetModificationDate ds.blob =
      (((jsonTime (ds.blob.getKey "date_created")).max
          (jsonTime (ds.blob.getKey "date_modified"))).max
        (jsonTime (ds.blob.getKey "date_deprecated"))).max
        (jsonTime (ds.blob.getKey "date_removed")) ∧
    syncStep env uid freshId now raw =
      (if GetModificationDate ds.blob ≠ 0 ∧
          ¬ GetModificationDate ds.blob > env.syncTimeOf ds.id then
        ([.updateSynced ds.id], .skipped, false)
      else
        ([.update ds.id ds.blob], .written, false)) := by
  refine ⟨getModificationDate_eq_max ds.blob, ?_⟩
  unfold syncStep
  rw [hres]
  simp [hrem]

/-- Witness for C6: a record carrying our editor metadata whose
date_modified equals the local synced time is batch-marked synced and
skipped. -/
theorem c6_sync_update_or_skip_witness :
    syncStep
        { metaxToQvain := [],
          syncTime := [("053bffbcc41edad4853bea91fc42ea18", 20200102030405)] }
        "05333333333333333333333333333333" "05444444444444444444444444444444" 0
        (.obj [("identifier", .str "urn:q"),
          ("data_catalog", .obj [("identifier", .str "urn:nbn:fi:att:data-catalog-ida")]),
          ("date_modified", .str "2020-01-02T03:04:05Z"),
          ("editor", .obj [("identifier", .str "qvain"),
            ("record_id", .str "053bffbcc41edad4853bea91fc42ea18")])]) =
      ([.updateSynced "053bffbcc41edad4853bea91fc42ea18"], .skipped, false) := by
  rw [(c6_sync_update_or_skip
      { metaxToQvain := [],
        syncTime := [("053bffbcc41edad4853bea91fc42ea18", 20200102030405)] }
      "05333333333333333333333333333333" "05444444444444444444444444444444" 0
      (.obj [("identifier", .str "urn:q"),
        ("data_catalog", .obj [("identifier", .str "urn:nbn:fi:att:data-catalog-ida")]),
        ("date_modified", .str "2020-01-02T03:04:05Z"),
        ("editor", .obj [("identifier", .str "qvain"),
          ("record_id", .str "053bffbcc41edad4853bea91fc42ea18")])])
      { id := "053bffbcc41edad4853bea91fc42ea18", family := 2, schema := "metax-ida",
        blob := .obj [("identifier", .str "urn:q"),
          ("data_catalog", .obj [("identifier", .str "urn:nbn:fi:att:data-catalog-ida")]),
          ("date_modified", .str "2020-01-02T03:04:05Z"),
          ("editor", .obj [("identifier", .str "qvain"),
            ("record_id", .str "053bffbcc41edad4853bea91fc42ea18")])] }
      rfl rfl).2]
  rfl

/-- Claim C7: an incoming removed record whose local id is unknown or never
synced is skipped with no batch write; a known one with nonzero synced is
batch-deleted; and a stream of exactly one removed record with a locally
unknown identifier tallies read 1, skipped 1 and nothing else. -/
theorem c7_sync_removed_records :
    (∀ (env : SyncEnv) (uid freshId : Uuid) (now : Nat) (raw : Json)
        (ds : DatasetRec) (isNew : Bool),
      resolveRecord env now raw = .ok ds isNew → ds.removed = true →
      env.syncTimeOf ds.id = 0 →
      syncStep env uid freshId now raw = ([], .skipped, false)) ∧
    (∀ (env : SyncEnv) (uid freshId : Uuid) (now : Nat) (raw : Json)
        (ds : DatasetRec) (isNew : Bool),
      resolveRecord env now raw = .ok ds isNew → ds.removed = true →
      env.syncTimeOf ds.id ≠ 0 →
      syncStep env uid freshId now raw = ([.delete ds.id], .deleted, false)) ∧
    syncRun
        (buildSyncEnv 1
          [{ id := "05aaaaaaaaaaaaaaaaaaaaaaaaaaaaaa", family := 2, synced := 5,
             blob := .obj [("identifier", .str "urn:y")] }])
        "05bbbbbbbbbbbbbbbbbbbbbbbbbbbbbb" 0 []
        [.obj [("identifier", .str "urn:x"), ("removed", .bool true),
          ("data_catalog", .obj [("identifier", .str "urn:nbn:fi:att:data-catalog-ida")])]]
      = { read := 1, skipped := 1 } := by
  refine ⟨?_, ?_, ?_⟩
  · intro env uid freshId now raw ds isNew hres hrem hzero
    unfold syncStep
    rw [hres]
    simp [hrem, hzero]
  · intro env uid freshId now raw ds isNew hres hrem hnz
    unfold syncStep
    rw [hres]
    simp [hrem, hnz]
  · rfl

/-- Witness for C7, at the removed-but-unknown record: the step is a skip
with no batch write. -/
theorem c7_sync_removed_records_witness :
    syncStep { metaxToQvain := [], syncTime := [] }
        "05bbbbbbbbbbbbbbbbbbbbbbbbbbbbbb" "05cccccccccccccccccccccccccccccc" 0
        (.obj [("identifier", .str "urn:x"), ("removed", .bool true),
          ("data_catalog", .obj [("identifier", .str "urn:nbn:fi:att:data-catalog-ida")])]) =
      ([], .skipped, false) :=
  c7_sync_removed_records.1 { metaxToQvain := [], syncTime := [] }
    "05bbbbbbbbbbbbbbbbbbbbbbbbbbbbbb" "05cccccccccccccccccccccccccccccc" 0
    (.obj [("identifier", .str "urn:x"), ("removed", .bool true),
      ("data_catalog", .obj [("identifier", .str "urn:nbn:fi:att:data-catalog-ida")])])
    { family := 2, schema := "metax-ida",
      blob := .obj [("identifier", .str "urn:x"), ("removed", .bool true),
        ("data_catalog", .obj [("identifier", .str "urn:nbn:fi:att:data-catalog-ida")])],
      removed := true }
    true rfl rfl rfl

end Qvain
